import Mathlib

/-!
Verification of the incremental scan-and-dedup cycle of the leads-tg-fb
repository: a shallow embedding of `src/processing/filter.py`,
`src/processing/analyzer.py`, `src/db/repository.py`,
`src/telegram/userbot.py` and the Telegram `process_cycle` of
`src/main.py`, together with theorems settling the specification claims.

Conventions of the embedding:
* Python exceptions are modelled with `Except String`, the string being the
  exception text (only its occurrence and the substrings `"429"`, `"quota"`,
  `"rate"` matter to the code).
* Python values coming out of `json.loads` are modelled by the inductive
  `PyVal`; JSON numbers are kept as a decimal mantissa/scale pair and
  compared by value, as Python compares numbers.
* All string processing is done over `List Char` with structural
  definitions so that every concrete scenario evaluates inside the kernel.
* External I/O (the Telegram server, the LLM backend, the wall clock) is
  passed in as explicit data.
-/

namespace LeadsTgFb

/-! ### Character-list string helpers (kernel-reducible) -/

/-- Does `needle` occur as a contiguous segment of `hay`?  Models Python's
`needle in hay` on strings. -/
def listContains : (hay needle : List Char) → Bool
  | _, [] => true
  | [], _ :: _ => false
  | h :: hs, n :: ns =>
    (List.isPrefixOf (n :: ns) (h :: hs)) || listContains hs (n :: ns)

/-- Python `needle in hay` for strings. -/
def strContains (hay needle : String) : Bool :=
  listContains hay.toList needle.toList

/-- Whitespace trim on both ends; models Python `str.strip()`. -/
def trimChars (cs : List Char) : List Char :=
  ((cs.dropWhile Char.isWhitespace).reverse.dropWhile Char.isWhitespace).reverse

/-- Python `str.strip()` on `String`. -/
def strStrip (s : String) : String :=
  String.mk (trimChars s.toList)

/-- ASCII lower-casing of one character (the code only ever matches
operator-supplied lowercase keywords, so ASCII folding is sufficient). -/
def asciiLower (c : Char) : Char :=
  if 'A' ≤ c ∧ c ≤ 'Z' then Char.ofNat (c.toNat + 32) else c

/-- Python `str.lower()` (ASCII fragment). -/
def strLower (s : String) : String :=
  String.mk (s.toList.map asciiLower)

/-- Split `cs` at every non-overlapping occurrence of `sep`; models Python
`str.split(sep)` for a non-empty separator.  Fuel-structural. -/
def splitOnChars (sep : List Char) : Nat → List Char → List (List Char)
  | 0, cs => [cs]
  | _ + 1, [] => [[]]
  | fuel + 1, c :: cs =>
    if List.isPrefixOf sep (c :: cs) ∧ sep ≠ [] then
      [] :: splitOnChars sep fuel ((c :: cs).drop sep.length)
    else
      match splitOnChars sep fuel cs with
      | [] => [[c]]
      | p :: ps => (c :: p) :: ps

/-- Python `hay.split(sep)`. -/
def strSplitOn (hay sep : String) : List String :=
  (splitOnChars sep.toList (hay.toList.length + 1) hay.toList).map String.mk

/-- Python `str.startswith(pre)`. -/
def strStartsWith (s pre : String) : Bool :=
  List.isPrefixOf pre.toList s.toList

/-- Python `s[n:]` (drop the first `n` characters). -/
def strDropN (s : String) (n : Nat) : String :=
  String.mk (s.toList.drop n)

/-- First index of character `c` in `cs`, or `none`; models `str.find`. -/
def findIdxChar (cs : List Char) (c : Char) : Option Nat :=
  cs.findIdx? (· = c)

/-- Last index of character `c` in `cs`, or `none`; models `str.rfind`. -/
def rfindIdxChar (cs : List Char) (c : Char) : Option Nat :=
  (cs.reverse.findIdx? (· = c)).map (fun r => cs.length - 1 - r)

/-- Decimal digits of a natural number, most significant first
(fuel-structural so it reduces in the kernel). -/
def natDigitsGo : Nat → Nat → List Char
  | 0, _ => []
  | _ + 1, 0 => []
  | fuel + 1, n => natDigitsGo fuel (n / 10) ++ [Char.ofNat (n % 10 + 48)]

/-- Render a natural number the way Python's f-strings do. -/
def natToStr (n : Nat) : String :=
  if n = 0 then "0" else String.mk (natDigitsGo (n + 1) n)

/-- Render an integer the way Python's f-strings do. -/
def intToStr (i : Int) : String :=
  if i < 0 then "-" ++ natToStr i.natAbs else natToStr i.natAbs

/-- Python `sep.join(parts)`. -/
def strJoin (sep : String) (parts : List String) : String :=
  match parts with
  | [] => ""
  | p :: ps => ps.foldl (fun acc q => acc ++ sep ++ q) p

/-! ### Python values produced by `json.loads` -/

/-- The Python values that `json.loads` can produce.  A JSON number is kept
as `PNum mant scale`, denoting `mant / 10 ^ scale`. -/
inductive PyVal where
  | PNull : PyVal
  | PBool : Bool → PyVal
  | PNum : Int → Nat → PyVal
  | PStr : String → PyVal
  | PList : List PyVal → PyVal
  | PDict : List (String × PyVal) → PyVal

/-- Python `==` on hashable scalar values (dict-key equality): numbers are
compared by value, `True == 1` and `False == 0` as in Python. -/
def pyKeyEq : PyVal → PyVal → Bool
  | .PNull, .PNull => true
  | .PBool a, .PBool b => a == b
  | .PBool a, .PNum m s => m * 1 = (if a then (10 : Int) ^ s else 0)
  | .PNum m s, .PBool b => m * 1 = (if b then (10 : Int) ^ s else 0)
  | .PNum m s, .PNum m' s' => m * (10 : Int) ^ s' = m' * (10 : Int) ^ s
  | .PStr a, .PStr b => a == b
  | _, _ => false

/-! ### A JSON reader modelling `json.loads`

Structured as depth-indexed, fuel-structural functions so all of it
reduces in the kernel.  `json.loads` raises on malformed input or
trailing data; this is modelled by returning `none`. -/

/-- Skip JSON whitespace. -/
def jsonSkipWs : List Char → List Char
  | c :: rest =>
    if c = ' ' ∨ c = '\n' ∨ c = '\t' ∨ c = '\r' then jsonSkipWs rest else c :: rest
  | [] => []

/-- One JSON escape character (the fragment the repository's data uses). -/
def jsonEsc (c : Char) : Option Char :=
  if c = '"' then some '"'
  else if c = '\\' then some '\\'
  else if c = '/' then some '/'
  else if c = 'n' then some '\n'
  else if c = 't' then some '\t'
  else if c = 'r' then some '\r'
  else none

/-- Parse the remainder of a JSON string after the opening quote. -/
def jsonPStr : Nat → List Char → Option (List Char × List Char)
  | 0, _ => none
  | _ + 1, [] => none
  | fuel + 1, c :: rest =>
    if c = '"' then some ([], rest)
    else if c = '\\' then
      match rest with
      | [] => none
      | e :: rest' =>
        match jsonEsc e with
        | none => none
        | some ch => (jsonPStr fuel rest').map (fun p => (ch :: p.1, p.2))
    else
      (jsonPStr fuel rest).map (fun p => (c :: p.1, p.2))

/-- Decimal digit run to a natural number. -/
def digitsToNat (ds : List Char) : Nat :=
  ds.foldl (fun a c => 10 * a + (c.toNat - 48)) 0

/-- Parse a JSON number (integer or decimal fraction). -/
def jsonPNum (cs : List Char) : Option (PyVal × List Char) :=
  let signed := match cs with
    | '-' :: r => (true, r)
    | _ => (false, cs)
  let ds := signed.2.takeWhile Char.isDigit
  if ds.isEmpty then none
  else
    let rest1 := signed.2.drop ds.length
    let iv : Int := digitsToNat ds
    match rest1 with
    | '.' :: r2 =>
      let fs := r2.takeWhile Char.isDigit
      if fs.isEmpty then none
      else
        let mant : Int := iv * (10 : Int) ^ fs.length + digitsToNat fs
        some (.PNum (if signed.1 then -mant else mant) fs.length, r2.drop fs.length)
    | _ => some (.PNum (if signed.1 then -iv else iv) 0, rest1)

/-- Parse a comma-separated run of values closed by `]`, given a parser
for the element values. -/
def jsonPElems (pv : List Char → Option (PyVal × List Char)) :
    Nat → List Char → Option (List PyVal × List Char)
  | 0, _ => none
  | fuel + 1, cs =>
    match pv cs with
    | none => none
    | some (v, r) =>
      match jsonSkipWs r with
      | ',' :: r' => (jsonPElems pv fuel r').map (fun p => (v :: p.1, p.2))
      | ']' :: r' => some ([v], r')
      | _ => none

/-- Insert a key into an object, replacing an existing binding the way
`json.loads` lets later duplicate keys win. -/
def jsonObjInsert (kvs : List (String × PyVal)) (k : String) (v : PyVal) :
    List (String × PyVal) :=
  if kvs.any (fun kv => kv.1 == k) then
    kvs.map (fun kv => if kv.1 == k then (k, v) else kv)
  else
    kvs ++ [(k, v)]

/-- Parse a run of `"key": value` members closed by `}`, given a parser
for the member values. -/
def jsonPMembers (pv : List Char → Option (PyVal × List Char)) :
    Nat → List Char → Option (List (String × PyVal) × List Char)
  | 0, _ => none
  | fuel + 1, cs =>
    match jsonSkipWs cs with
    | '"' :: r =>
      match jsonPStr (r.length + 1) r with
      | none => none
      | some (k, r1) =>
        match jsonSkipWs r1 with
        | ':' :: r2 =>
          match pv (jsonSkipWs r2) with
          | none => none
          | some (v, r3) =>
            match jsonSkipWs r3 with
            | ',' :: r4 =>
              (jsonPMembers pv fuel r4).map
                (fun p => ((String.mk k, v) :: p.1, p.2))
            | '}' :: r4 => some ([(String.mk k, v)], r4)
            | _ => none
        | _ => none
    | _ => none

/-- Parse one JSON value; `depth` bounds container nesting. -/
def jsonPVal : Nat → List Char → Option (PyVal × List Char)
  | 0, _ => none
  | depth + 1, cs0 =>
    match jsonSkipWs cs0 with
    | [] => none
    | 'n' :: r => if r.take 3 = ['u', 'l', 'l'] then some (.PNull, r.drop 3) else none
    | 't' :: r => if r.take 3 = ['r', 'u', 'e'] then some (.PBool true, r.drop 3) else none
    | 'f' :: r =>
      if r.take 4 = ['a', 'l', 's', 'e'] then some (.PBool false, r.drop 4) else none
    | '"' :: r => (jsonPStr (r.length + 1) r).map (fun p => (.PStr (String.mk p.1), p.2))
    | '[' :: r =>
      match jsonSkipWs r with
      | ']' :: r' => some (.PList [], r')
      | r' => (jsonPElems (jsonPVal depth) (r'.length + 1) r').map
          (fun p => (.PList p.1, p.2))
    | '{' :: r =>
      match jsonSkipWs r with
      | '}' :: r' => some (.PDict [], r')
      | r' =>
        match jsonPMembers (jsonPVal depth) (r'.length + 1) r' with
        | none => none
        | some (kvs, r'') =>
          some (.PDict (kvs.foldl (fun acc kv => jsonObjInsert acc kv.1 kv.2) []), r'')
    | c :: r => if c = '-' ∨ c.isDigit then jsonPNum (c :: r) else none

/-- Python `json.loads`: parse a full JSON document, rejecting trailing
data, and report failure (a `JSONDecodeError`) as `none`. -/
def jsonLoads (cs : List Char) : Option PyVal :=
  match jsonPVal (cs.length + 1) cs with
  | none => none
  | some (v, rest) => if jsonSkipWs rest = [] then some v else none

/-! ### `parse_response` (src/processing/analyzer.py lines 61-90) -/

/-- The markdown code-block recovery of `parse_response`: if the text
contains triple backticks, scan the split parts for one that (after
stripping, and dropping a leading `json` tag) starts with `[`. -/
def stripCodeBlock (text : String) : String :=
  if strContains text "```" then
    let candidate := (strSplitOn text "```").findSome? (fun part =>
      let p := strStrip part
      let p := if strStartsWith p "json" then strStrip (strDropN p 4) else p
      if strStartsWith p "[" then some p else none)
    match candidate with
    | some p => p
    | none => text
  else text

/-- The bracket-slicing of `parse_response`: cut from the first `[` to
the last `]` when the latter comes after the former. -/
def sliceArray (text : String) : String :=
  let cs := text.toList
  match findIdxChar cs '[', rfindIdxChar cs ']' with
  | some s, some e =>
    if s < e then String.mk ((cs.drop s).take (e + 1 - s)) else text
  | _, _ => text

/-- Model of `parse_response(result_text)`: strip, treat empty as no leads, recover
an array from markdown fences, slice to the bracketed segment, and
`json.loads` it, returning the empty list when parsing fails.  Note the
parsed value is returned as-is, whatever its type. -/
def parse_response (result_text : String) : PyVal :=
  let text := strStrip result_text
  if text = "" then .PList []
  else
    let text := stripCodeBlock text
    let text := sliceArray text
    match jsonLoads text.toList with
    | some v => v
    | none => .PList []

/-! ### The batch analyzer (src/processing/analyzer.py lines 93-214)

The LLM backend is external I/O: it is modelled as a function from the
prompt and the (0-based) attempt number to either a response text or an
exception text.  `BATCH_PROMPT` lives in `src/processing/prompts.py`,
which is not part of the sources; per the spec it only wraps the
serialized indexed lines, so it is passed in as an abstract
`batchPrompt : String → String` template. -/

/-- One input of `analyze_batch`: index, optional user id (the code
accepts both `(idx, text)` and `(idx, user_id, text)` tuples), text. -/
structure Item where
  idx : Nat
  user : Option Int
  text : String
deriving DecidableEq

/-- A value of the per-item result tuple
`(is_lead, reason, confidence, lead_type)`; the last three components are
whatever Python values the backend's JSON carried. -/
abbrev Verdict := Bool × PyVal × PyVal × PyVal

/-- The serialized line for one item: `[idx] (user:uid) text` or
`[idx] text`. -/
def fmtLine (it : Item) : String :=
  match it.user with
  | some uid => "[" ++ natToStr it.idx ++ "] (user:" ++ intToStr uid ++ ") " ++ it.text
  | none => "[" ++ natToStr it.idx ++ "] " ++ it.text

/-- The full prompt for one chunk: the items joined by blank lines,
substituted into the batch prompt template. -/
def mkPrompt (batchPrompt : String → String) (messages : List Item) : String :=
  batchPrompt (strJoin "\n\n" (messages.map fmtLine))

/-- The rate-limit test applied to an exception text: `"429" in s or
"quota" in s.lower() or "rate" in s.lower()`. -/
def isRateLimit (e : String) : Bool :=
  strContains e "429" || strContains (strLower e) "quota" || strContains (strLower e) "rate"

/-- Python dict assignment `d[k] = v` for the results dict keyed by the
backend-supplied `id` values: replace in place or append. -/
def pyInsert (d : List (PyVal × Verdict)) (k : PyVal) (v : Verdict) :
    List (PyVal × Verdict) :=
  if d.any (fun kv => pyKeyEq k kv.1) then
    d.map (fun kv => if pyKeyEq k kv.1 then (kv.1, v) else kv)
  else
    d ++ [(k, v)]

/-- Python `d.get(k)` on the results dict. -/
def pyGet (d : List (PyVal × Verdict)) (k : PyVal) : Option Verdict :=
  (d.find? (fun kv => pyKeyEq k kv.1)).map (·.2)

/-- Python `r.get(k, default)` on a JSON object. -/
def objGetD (kvs : List (String × PyVal)) (k : String) (dflt : PyVal) : PyVal :=
  match kvs.find? (fun kv => kv.1 == k) with
  | some kv => kv.2
  | none => dflt

/-- Is a Python value hashable (usable as a dict key)? -/
def pyHashable : PyVal → Bool
  | .PList _ => false
  | .PDict _ => false
  | _ => true

/-- The dict comprehension of `analyze_batch`: every returned result is a
lead, keyed by `r["id"]`, with defaults `reason=""`, `confidence=0.5`,
`type="property"`.  Iterating a non-list, reading a field of a non-object,
a missing `"id"` key and an unhashable id are the exceptions Python would
raise at this point. -/
def convertResults : PyVal → Except String (List (PyVal × Verdict))
  | .PList rs =>
    rs.foldlM (fun acc r =>
      match r with
      | .PDict d =>
        match d.find? (fun kv => kv.1 == "id") with
        | some kv =>
          if pyHashable kv.2 then
            .ok (pyInsert acc kv.2
              (true, objGetD d "reason" (.PStr ""),
                objGetD d "confidence" (.PNum 5 1), objGetD d "type" (.PStr "property")))
          else .error "TypeError: unhashable key"
        | none => .error "KeyError: id"
      | _ => .error "AttributeError: result item has no fields") []
  | _ => .error "TypeError: results object is not iterable"

/-- The retry loop of `analyze_batch`: `remaining` is the number of loop
iterations left (initially `max_retries`), `attempt` the 0-based attempt
index.  An exception retries only when it looks like a rate limit and at
least one further attempt remains (`attempt < max_retries - 1`, i.e.
`remaining ≥ 2`); otherwise it becomes
`AnalysisError("Failed to analyze batch: ...")`. -/
def analyzeAttempts (llm : Nat → Except String String) :
    Nat → Nat → Except String (List (PyVal × Verdict))
  | 0, _ => .error "Max retries exceeded"
  | remaining + 1, attempt =>
    let outcome : Except String (List (PyVal × Verdict)) :=
      match llm attempt with
      | .error e => .error e
      | .ok text => convertResults (parse_response text)
    match outcome with
    | .ok d => .ok d
    | .error e =>
      if isRateLimit e ∧ 1 ≤ remaining then
        analyzeAttempts llm remaining (attempt + 1)
      else
        .error ("Failed to analyze batch: " ++ e)

/-- Model of `analyze_batch(messages, max_retries=3)`: empty input short-circuits
to an empty dict; otherwise the prompt is built once and the LLM is
called with retries.  The error value models a raised `AnalysisError`. -/
def analyze_batch (llm : Nat → Except String String) (messages : List Item)
    (max_retries : Nat) : Except String (List (PyVal × Verdict)) :=
  if messages.isEmpty then .ok []
  else analyzeAttempts llm max_retries 0

/-- The `texts[i:i+batch_size]` chunking (`for i in range(0, len(texts),
batch_size)`); fuel-structural, faithful for `batch_size ≥ 1`. -/
def chunkGo (n : Nat) : Nat → List Item → List (List Item)
  | 0, _ => []
  | _ + 1, [] => []
  | fuel + 1, l => l.take n :: chunkGo n fuel (l.drop n)

/-- Partition into consecutive chunks of at most `batch_size` items. -/
def chunkList (l : List Item) (batch_size : Nat) : List (List Item) :=
  chunkGo batch_size l.length l

/-- Merge one chunk's result dict into the running dict
(`all_results.update(result)`). -/
def pyMerge (acc d : List (PyVal × Verdict)) : List (PyVal × Verdict) :=
  d.foldl (fun a kv => pyInsert a kv.1 kv.2) acc

/-- Model of `analyze_messages_batch(texts, batch_size=100, max_parallel=3)`:
chunk, dispatch every chunk (waves of `max_parallel` only schedule the
same per-chunk calls concurrently, so the merged outcome is the in-order
merge), collect the dicts of the chunks that succeeded, drop the failed
ones, and return the merged dict together with the success flag.  As in
the source, the returned flag is the literal `True` — failed chunks are
only logged. -/
def analyze_messages_batch (llm : String → Nat → Except String String)
    (batchPrompt : String → String) (texts : List Item)
    (batch_size max_parallel : Nat) :
    List (PyVal × Verdict) × Bool :=
  let _waveSize := max_parallel
  let batches := chunkList texts batch_size
  let results := batches.map
    (fun b => analyze_batch (llm (mkPrompt batchPrompt b)) b 3)
  let all_results := results.foldl (fun acc r =>
    match r with
    | .ok d => pyMerge acc d
    | .error _ => acc) []
  (all_results, true)

/-! ### Messages and the content filter (src/telegram/userbot.py,
src/processing/filter.py, src/main.py lines 85-94) -/

/-- The `ParsedMessage` dataclass.  `user_id = 0` stands for a message
without a usable sender (Python's falsy `sender_id`), mirroring the
`not msg.sender_id` check; `date` is a Unix timestamp. -/
structure ParsedMessage where
  message_id : Nat
  chat_id : Int
  chat_title : Option String
  chat_username : Option String
  user_id : Int
  username : Option String
  first_name : Option String
  text : String
  date : Int
  topic_id : Option Nat
  reply_to_text : Option String
deriving DecidableEq

/-- The per-message keep test of `get_new_messages`:
`if not msg.text or not msg.sender_id: continue`. -/
def validMsg (m : ParsedMessage) : Bool :=
  m.text ≠ "" && m.user_id ≠ 0

/-- Newest-first order used by the Telegram iterator. -/
def idGe (a b : ParsedMessage) : Prop :=
  b.message_id ≤ a.message_id

instance : DecidableRel idGe := fun a b => Nat.decLe b.message_id a.message_id

instance : IsTotal ParsedMessage idGe :=
  ⟨fun a b => (Nat.le_total b.message_id a.message_id).imp id id⟩

instance : IsTrans ParsedMessage idGe :=
  ⟨fun _ _ _ h1 h2 => Nat.le_trans h2 h1⟩

/-- Model of `UserBot.get_new_messages(peer, min_id)`: the server yields at most
`limit=100` messages, newest first, strictly newer than `min_id`
(Telethon `min_id` semantics); messages without text or sender are then
skipped.  `history` is the chat's full server-side message list. -/
def get_new_messages (history : List ParsedMessage) (min_id : Nat) :
    List ParsedMessage :=
  (((history.filter (fun m => min_id < m.message_id)).insertionSort idGe).take 100).filter
    validMsg

/-- Model of `filter_messages(messages)` from src/processing/filter.py: drop every
message whose lowered text contains one of the (already lowercase)
exclusion words. -/
def filter_messages (exclude_words : List String) (messages : List ParsedMessage) :
    List ParsedMessage :=
  messages.filter (fun msg =>
    !(exclude_words.any (fun word => strContains (strLower msg.text) word)))

/-- The per-cycle text de-duplication loop of `process_cycle`
(src/main.py lines 85-94): keep a message only if its exact text was not
seen before in this cycle. -/
def dedupGo (seen : List String) : List ParsedMessage → List ParsedMessage
  | [] => []
  | m :: rest =>
    if m.text ∈ seen then dedupGo seen rest
    else m :: dedupGo (m.text :: seen) rest

/-- The `seen_texts` de-duplication by exact text. -/
def dedupByText (messages : List ParsedMessage) : List ParsedMessage :=
  dedupGo [] messages

/-- The whole Content Filter stage of a cycle: exclusion filtering
followed by exact-text de-duplication. -/
def contentFilterStage (exclude_words : List String)
    (messages : List ParsedMessage) : List ParsedMessage :=
  dedupByText (filter_messages exclude_words messages)

/-! ### The database layer (src/db/models.py, src/db/repository.py) -/

/-- A row of the `messages` table that the cycle touches.  `save_message`
leaves the verdict columns NULL; `update_message_lead_status` fills them. -/
structure StoredMsg where
  id : Nat
  telegram_message_id : Nat
  chat_id : Int
  text : String
  is_lead : Option Bool
  confidence : Option PyVal
  reason : Option PyVal

/-- A row of the `processed_users` table. -/
structure UserRow where
  id : Nat
  telegram_user_id : Int
  username : Option String
  first_name : Option String

/-- The database state a Telegram cycle reads and writes: `chat_state`
rows (chat id, last message id), `processed_users` and `messages`. -/
structure DB where
  chatStates : List (Int × Nat)
  users : List UserRow
  messages : List StoredMsg

/-- The empty database. -/
def DB.empty : DB := ⟨[], [], []⟩

/-- Model of `Repository.get_last_message_id(chat_id)`. -/
def get_last_message_id (db : DB) (chat_id : Int) : Option Nat :=
  (db.chatStates.find? (fun st => st.1 = chat_id)).map (·.2)

/-- Update the first matching row of an association list, else append —
the `query ... .first()` / `session.add` pattern of the repository. -/
def setAssoc : List (Int × Nat) → Int → Nat → List (Int × Nat)
  | [], c, m => [(c, m)]
  | (k, v) :: rest, c, m =>
    if k = c then (c, m) :: rest else (k, v) :: setAssoc rest c m

/-- Model of `Repository.update_last_message_id(chat_id, message_id)`: the stored
watermark is set to `message_id` unconditionally (there is no
monotonicity guard in the source). -/
def update_last_message_id (db : DB) (chat_id : Int) (message_id : Nat) : DB :=
  { db with chatStates := setAssoc db.chatStates chat_id message_id }

/-- Model of `Repository.get_or_create_user`: find by `telegram_user_id` or insert
a fresh row. -/
def get_or_create_user (db : DB) (telegram_user_id : Int)
    (username first_name : Option String) : DB × UserRow :=
  match db.users.find? (fun u => u.telegram_user_id = telegram_user_id) with
  | some u => (db, u)
  | none =>
    let u : UserRow := ⟨db.users.length + 1, telegram_user_id, username, first_name⟩
    ({ db with users := db.users ++ [u] }, u)

/-- Model of `Repository.save_message`: insert a `Message` row with NULL verdict
columns and an auto-assigned id. -/
def save_message (db : DB) (telegram_message_id : Nat) (chat_id : Int)
    (text : String) : DB × StoredMsg :=
  let msg : StoredMsg :=
    ⟨db.messages.length + 1, telegram_message_id, chat_id, text, none, none, none⟩
  ({ db with messages := db.messages ++ [msg] }, msg)

/-- Model of `Repository.update_message_lead_status(message_id, is_lead,
confidence, reason)` on the first row with that id. -/
def update_message_lead_status (db : DB) (message_id : Nat) (is_lead : Bool)
    (confidence reason : PyVal) : DB :=
  { db with
    messages := db.messages.map (fun m =>
      if m.id = message_id then
        { m with is_lead := some is_lead, confidence := some confidence,
                 reason := some reason }
      else m) }

/-- Modelled from the spec: `Repository.reset_telegram_chat_states` is
called from the `/reset` callback in src/main.py but its definition is
not among the sources; §4.1's `reset_watermarks` clears the
already-scanned condition for the sources and returns the count reset. -/
def reset_telegram_chat_states (db : DB) : DB × Nat :=
  ({ db with chatStates := [] }, db.chatStates.length)

/-- The `/reset` callback `reset_chat_states` of src/main.py: reset all
Telegram chat states and return the count. -/
def reset_chat_states (db : DB) : DB × Nat :=
  reset_telegram_chat_states db

/-! ### The Telegram cycle orchestrator (src/main.py `process_cycle`)

External collaborators are passed in as data: the folder's chats with
their server-side histories (`folderChats`, an `Except` because
`get_folder_chats` performs network I/O that can raise), the LLM backend,
the clock, the configured exclusion words, and the batch prompt template.
`NotificationBot.send_stats` / `send_leads_batch` are fire-and-forget
(the spec's Notifier contract; `send_leads_batch` itself is referenced
from main.py but not among the sources), so sends are recorded in the
output rather than threaded through failure handling. -/

/-- A chat of the monitored folder: the normalized chat id and the
server-side message history. -/
structure Chat where
  chat_id : Int
  history : List ParsedMessage
deriving DecidableEq

/-- The four counters of one `send_stats` call:
total, filtered, analyzed, leads. -/
structure Stats where
  total : Nat
  filtered : Nat
  analyzed : Nat
  leads : Nat
deriving DecidableEq

/-- A notified lead: the message together with its verdict tuple (the
chat-link/contact formatting is presentation inside the Notifier
payload). -/
abbrev Lead := ParsedMessage × Verdict

/-- The environment of one cycle run. -/
structure CycleEnv where
  folderChats : Except String (List Chat)
  llm : String → Nat → Except String String
  batchPrompt : String → String
  excludeWords : List String
  now : Int

/-- The observable outcome of one cycle: the final database, the
`send_stats` calls made, and the `send_leads_batch` calls made. -/
structure CycleOut where
  db : DB
  stats : List Stats
  leadBatches : List (List Lead)

/-- Python `max(m.message_id for m in messages)` (on a non-empty list). -/
def maxMsgId (msgs : List ParsedMessage) : Nat :=
  msgs.foldl (fun acc m => Nat.max acc m.message_id) 0

/-- Step 2 of `process_cycle` for one chat (src/main.py lines 38-74):
no watermark means a bootstrap fetch from id 0 restricted to the last 24
hours for analysis, while the candidate watermark is the maximum id over
*all* fetched messages; an existing watermark means a strictly-newer
fetch.  Returns the messages contributed to the cycle and the optional
`(chat_id, max_msg_id)` entry for `chats_to_update`. -/
def collectOne (db : DB) (now : Int) (c : Chat) :
    List ParsedMessage × Option (Int × Nat) :=
  match get_last_message_id db c.chat_id with
  | none =>
    let messages := get_new_messages c.history 0
    if messages.isEmpty then ([], none)
    else
      let cutoff := now - 24 * 3600
      let recent := messages.filter (fun m => cutoff < m.date)
      (recent, some (c.chat_id, maxMsgId messages))
  | some min_id =>
    let messages := get_new_messages c.history min_id
    if messages.isEmpty then ([], none)
    else (messages, some (c.chat_id, maxMsgId messages))

/-- Collect messages and watermark candidates from every chat, in order. -/
def collectMessages (db : DB) (now : Int) (peers : List Chat) :
    List ParsedMessage × List (Int × Nat) :=
  peers.foldl (fun acc c =>
    let r := collectOne db now c
    (acc.1 ++ r.1, acc.2 ++ r.2.toList)) ([], [])

/-- Step 3's persistence: for each surviving message, get-or-create its
author and save a `Message` row; returns the messages paired with their
row ids (`filtered_messages`). -/
def saveAll (db : DB) (msgs : List ParsedMessage) : DB × List (ParsedMessage × Nat) :=
  msgs.foldl (fun acc msg =>
    let d1 := (get_or_create_user acc.1 msg.user_id msg.username msg.first_name).1
    let r := save_message d1 msg.message_id msg.chat_id msg.text
    (r.1, acc.2 ++ [(msg, r.2.id)])) (db, [])

/-- Model of `format_text_for_analysis`: prepend the reply context when present
(and non-empty, Python truthiness). -/
def format_text_for_analysis (msg : ParsedMessage) : String :=
  match msg.reply_to_text with
  | some r => if r = "" then msg.text else "(↩ \"" ++ r ++ "\") " ++ msg.text
  | none => msg.text

/-- Step 5 of `process_cycle` (lines 136-189): walk `filtered_messages`
with their enumeration indices, look each index up in the results dict,
write the verdict onto the row, and collect the leads. -/
def processResults (db : DB) (fms : List (ParsedMessage × Nat))
    (results : List (PyVal × Verdict)) : DB × List Lead × Nat :=
  fms.enum.foldl (fun acc p =>
    match pyGet results (.PNum (Int.ofNat p.1) 0) with
    | none => acc
    | some v =>
      let db1 := update_message_lead_status acc.1 p.2.2 v.1 v.2.2.1 v.2.1
      if v.1 then (db1, acc.2.1 ++ [(p.2.1, v)], acc.2.2 + 1)
      else (db1, acc.2.1, acc.2.2)) (db, [], 0)

/-- The body of `process_cycle` after a successful `get_folder_chats`. -/
def process_cycle_ok (env : CycleEnv) (db : DB) (peers : List Chat) : CycleOut :=
  if peers.isEmpty then ⟨db, [⟨0, 0, 0, 0⟩], []⟩
  else
    let collected := collectMessages db env.now peers
    let all_messages := collected.1
    let chats_to_update := collected.2
    let total_messages := all_messages.length
    if all_messages.isEmpty then ⟨db, [⟨0, 0, 0, 0⟩], []⟩
    else
      let filtered := contentFilterStage env.excludeWords all_messages
      let saved := saveAll db filtered
      let db1 := saved.1
      let filtered_messages := saved.2
      if filtered_messages.isEmpty then ⟨db1, [⟨total_messages, 0, 0, 0⟩], []⟩
      else
        let texts := filtered_messages.enum.map (fun p =>
          Item.mk p.1 (some p.2.1.user_id) (format_text_for_analysis p.2.1))
        let analyzed := analyze_messages_batch env.llm env.batchPrompt texts 100 3
        if !analyzed.2 then
          ⟨db1, [⟨total_messages, filtered_messages.length, 0, 0⟩], []⟩
        else
          let processed := processResults db1 filtered_messages analyzed.1
          let db2 := processed.1
          let leads_list := processed.2.1
          let leads_found := processed.2.2
          let db3 := chats_to_update.foldl
            (fun d p => update_last_message_id d p.1 p.2) db2
          ⟨db3,
            [⟨total_messages, filtered_messages.length, filtered_messages.length,
              leads_found⟩],
            if leads_list.isEmpty then [] else [leads_list]⟩

/-- Model of `process_cycle(userbot, bot)`: one Telegram processing cycle.  The
top-level `try/except` catches any unhandled exception and only logs it,
so a failed `get_folder_chats` ends the cycle with no stats sent and no
state change. -/
def process_cycle (env : CycleEnv) (db : DB) : CycleOut :=
  match env.folderChats with
  | .error _ => ⟨db, [], []⟩
  | .ok peers => process_cycle_ok env db peers

/-! ### Concrete scenarios used by the theorems -/

/-- A message with the fixed plumbing fields of the scenarios. -/
def mkPM (mid : Nat) (t : String) (d : Int) : ParsedMessage :=
  ⟨mid, 1, none, none, 5, none, none, t, d, none, none⟩

/-- A backend that answers the chunk containing item 1 with an error and
every other chunk with a single lead for item 0. -/
def llmSplit : String → Nat → Except String String :=
  fun p _ =>
    if strContains p "[1]" then .error "boom" else .ok "[\x7b\"id\": 0\x7d]"

/-- Two items, which `batch_size = 1` splits into two chunks. -/
def textsTwo : List Item := [⟨0, none, "a"⟩, ⟨1, none, "b"⟩]

/-- A cycle over one never-scanned chat with one fresh message, against a
backend whose only chunk always raises. -/
def envChunkFail : CycleEnv :=
  ⟨.ok [⟨1, [mkPM 7 "hello" 999000]⟩], fun _ _ => .error "boom", id, [], 1000000⟩

/-- A cycle whose `get_folder_chats` call raises (network failure). -/
def envFetchFail : CycleEnv :=
  ⟨.error "network down", fun _ _ => .ok "", id, [], 0⟩

/-- The spec's filter-dedup example input: three case variations of one
text plus one distinct text. -/
def msgs4 : List ParsedMessage :=
  [mkPM 1 "Selling car" 0, mkPM 2 "selling car" 0,
   mkPM 3 "Selling CAR" 0, mkPM 4 "House for rent" 0]

/-- A never-scanned chat holding one message inside the 24-hour window
(id 2) and one outside it with a larger ordinal (id 5). -/
def chatNew : Chat := ⟨1, [mkPM 2 "hello" 999000, mkPM 5 "old" 0]⟩

/-- A cycle over `chatNew` with a successful zero-lead backend. -/
def envNewChat : CycleEnv :=
  ⟨.ok [chatNew], fun _ _ => .ok "[]", id, [], 1000000⟩

/-- A 101-message history, all valid, ids 1..101. -/
def hist101 : List ParsedMessage :=
  (List.range 101).map (fun i => mkPM (i + 1) "t" 0)

/-- A five-item batch. -/
def items5 : List Item :=
  [⟨0, none, "a"⟩, ⟨1, none, "b"⟩, ⟨2, none, "c"⟩, ⟨3, none, "d"⟩, ⟨4, none, "e"⟩]

/-! ## Theorems -/

/-! ### Supporting lemmas -/

theorem setAssoc_find_self (l : List (Int × Nat)) (c : Int) (m : Nat) :
    (setAssoc l c m).find? (fun st => st.1 = c) = some (c, m) := by
  induction l with
  | nil => simp [setAssoc]
  | cons kv rest ih =>
    by_cases h : kv.1 = c
    · simp [setAssoc, h]
    · simpa [setAssoc, h, List.find?] using ih

theorem get_update_last_message_id (db : DB) (c : Int) (m : Nat) :
    get_last_message_id (update_last_message_id db c m) c = some m := by
  simp [get_last_message_id, update_last_message_id, setAssoc_find_self]

theorem setAssoc_setAssoc (l : List (Int × Nat)) (c : Int) (n m : Nat) :
    setAssoc (setAssoc l c n) c m = setAssoc l c m := by
  induction l with
  | nil => simp [setAssoc]
  | cons kv rest ih =>
    by_cases h : kv.1 = c
    · simp [setAssoc, h]
    · simp [setAssoc, h, ih]

theorem strToList (s : String) : s.toList = s.data := rfl

theorem analyze_batch_ok_empty (msgs : List Item) (llm : Nat → Except String String)
    (resp : String) (hllm : llm 0 = .ok resp)
    (hresp : parse_response resp = .PList []) :
    analyze_batch llm msgs 3 = .ok [] := by
  by_cases h : msgs.isEmpty
  · simp [analyze_batch, h]
  · simp [analyze_batch, h, analyzeAttempts, hllm, hresp, convertResults, pure,
      Except.pure]

theorem amb_success (llm : String → Nat → Except String String)
    (bp : String → String) (texts : List Item) (bs mp : Nat) :
    (analyze_messages_batch llm bp texts bs mp).2 = true := rfl

theorem processResults_empty_results :
    ∀ (l : List (Nat × ParsedMessage × Nat)) (acc : DB × List Lead × Nat),
      l.foldl (fun acc p =>
        match pyGet [] (.PNum (Int.ofNat p.1) 0) with
        | none => acc
        | some v =>
          let db1 := update_message_lead_status acc.1 p.2.2 v.1 v.2.2.1 v.2.1
          if v.1 then (db1, acc.2.1 ++ [(p.2.1, v)], acc.2.2 + 1)
          else (db1, acc.2.1, acc.2.2)) acc = acc
  | [], _ => rfl
  | _ :: rest, acc => processResults_empty_results rest acc

/-! ### C1 — the aggregate success flag of `analyze_messages_batch` -/

/-- C1: the claim states that the aggregate success flag is `false`
whenever a chunk raises an analysis error.  In the source the flag is
the literal `True`: with `batch_size = 1`, the chunk holding item 1
raises `AnalysisError`, yet the call returns the surviving chunk's
verdict together with `success = true`. -/
theorem C1_success_flag_constant_true :
    chunkList textsTwo 1 = [[⟨0, none, "a"⟩], [⟨1, none, "b"⟩]]
    ∧ analyze_batch (fun a => llmSplit (mkPrompt id [⟨1, none, "b"⟩]) a)
        [⟨1, none, "b"⟩] 3 = .error "Failed to analyze batch: boom"
    ∧ analyze_messages_batch llmSplit id textsTwo 1 3 =
        ([(.PNum 0 0, (true, .PStr "", .PNum 5 1, .PStr "property"))], true) :=
  ⟨rfl, rfl, rfl⟩

/-! ### C2 — commit happens even when a classification chunk fails -/

/-- C2: the claim states that a cycle with a failed chunk commits
nothing.  In `envChunkFail` the cycle's only chunk raises
`AnalysisError`, yet because `analyze_messages_batch` reports success
the cycle advances the chat's watermark to 7; the `StoredMessage` row
saved before classification does exist, with NULL verdict. -/
theorem C2_commit_despite_chunk_failure :
    analyze_batch
        (fun a => envChunkFail.llm
          (mkPrompt envChunkFail.batchPrompt [⟨0, some 5, "hello"⟩]) a)
        [⟨0, some 5, "hello"⟩] 3 = .error "Failed to analyze batch: boom"
    ∧ (process_cycle envChunkFail DB.empty).db.chatStates = [(1, 7)]
    ∧ (process_cycle envChunkFail DB.empty).db.messages.map
        (fun m => (m.text, m.is_lead)) = [("hello", none)] :=
  ⟨rfl, rfl, rfl⟩

/-! ### C3 — `update_last_message_id` is not monotonic -/

/-- C3 counterexample: advancing the watermark of source 1 to 5 and then
to 3 leaves it at 3, not at 5 — the operation has no monotonicity
guard. -/
theorem C3_counterexample :
    get_last_message_id
        (update_last_message_id (update_last_message_id DB.empty 1 5) 1 3) 1 ≠ some 5
    ∧ get_last_message_id
        (update_last_message_id (update_last_message_id DB.empty 1 5) 1 3) 1 = some 3 :=
  ⟨by decide, rfl⟩

/-- C3 amended: `update_last_message_id` overwrites unconditionally
(last writer wins), so a smaller ordinal regresses the watermark; the
operation is idempotent (take `m = n`). -/
theorem C3_last_writer_wins (db : DB) (c : Int) (n m : Nat) :
    get_last_message_id (update_last_message_id db c n) c = some n
    ∧ update_last_message_id (update_last_message_id db c n) c m =
        update_last_message_id db c m := by
  refine ⟨get_update_last_message_id db c n, ?_⟩
  simp [update_last_message_id, setAssoc_setAssoc]

/-! ### C5 — the Content Filter de-duplication is by exact bytes -/

/-- C5 counterexample: on the spec's four-item example the Content
Filter stage keeps all 4 items, not 2 — de-duplication compares exact
text, so case variations survive; nor is any trimming applied, so
`"a"` and `"a "` both survive. -/
theorem C5_counterexample :
    (contentFilterStage [] msgs4).length ≠ 2
    ∧ (contentFilterStage [] msgs4).length = 4
    ∧ (contentFilterStage [] [mkPM 1 "a" 0, mkPM 2 "a " 0]).length = 2 :=
  ⟨by decide, rfl, rfl⟩

/-! ### C8 — the `/reset` operation (spec-modelled) -/

/-- C8: resetting clears every stored watermark, so any chat
subsequently reads as never-scanned, and the count of cleared states is
returned.  (`Repository.reset_telegram_chat_states` itself is not among
the sources; it is modelled from §4.1 of the spec.) -/
theorem C8_reset_clears_states (db : DB) (c : Int) :
    get_last_message_id (reset_chat_states db).1 c = none
    ∧ (reset_chat_states db).2 = db.chatStates.length := by
  exact ⟨by simp [reset_chat_states, reset_telegram_chat_states, get_last_message_id],
    rfl⟩

/-! ### C6 — an empty backend result is a zero-lead success -/

/-- C6: if the backend's first answer parses to an empty result list,
`analyze_batch` succeeds with an empty verdict dict; looking any index up
in that dict yields nothing, and the results-processing step then
touches no row, collects no lead and counts zero leads — an absent index
is treated as "not a lead". -/
theorem C6_empty_result_is_success (msgs : List Item)
    (llm : Nat → Except String String) (resp : String)
    (hllm : llm 0 = .ok resp) (hresp : parse_response resp = .PList []) :
    analyze_batch llm msgs 3 = .ok []
    ∧ (∀ i : PyVal, pyGet [] i = none)
    ∧ (∀ (db : DB) (fms : List (ParsedMessage × Nat)),
        processResults db fms [] = (db, [], 0)) := by
  refine ⟨analyze_batch_ok_empty msgs llm resp hllm hresp, fun _ => rfl,
    fun db fms => processResults_empty_results fms.enum (db, [], 0)⟩

/-- C6 witness: a five-item batch against a backend answering with the
empty string resolves to a successful empty verdict dict. -/
theorem C6_witness :
    (fun _ : Nat => (Except.ok "" : Except String String)) 0 =
      (Except.ok "" : Except String String)
    ∧ parse_response "" = .PList []
    ∧ analyze_batch (fun _ : Nat => (Except.ok "" : Except String String)) items5 3 =
      .ok [] :=
  ⟨rfl, rfl, (C6_empty_result_is_success items5 _ "" rfl rfl).1⟩

/-! ### C9 — `parse_response` can return a non-list -/

/-- C9 counterexample: the input `"42"` contains no JSON array yet
parses as JSON, so `parse_response` returns the number 42 — not the
empty list — and the chunk then fails with `AnalysisError` instead of
counting as a zero-lead success. -/
theorem C9_counterexample :
    parse_response "42" = .PNum 42 0
    ∧ parse_response "42" ≠ .PList []
    ∧ analyze_batch (fun _ : Nat => Except.ok ("42" : String)) [⟨0, none, "x"⟩] 3 =
        .error "Failed to analyze batch: TypeError: results object is not iterable" :=
  ⟨rfl, fun h => by simp [parse_response, strStrip, trimChars, stripCodeBlock,
    strContains, listContains, sliceArray, findIdxChar, rfindIdxChar, jsonLoads,
    jsonPVal, jsonSkipWs, jsonPNum, digitsToNat] at h, rfl⟩

/-- C9 amended: `parse_response` never raises; empty input and
JSON-parse failure yield the empty list, but when the extracted text
parses as JSON the parsed value is returned as-is — which need not be a
list (e.g. `"42"` gives the number 42, which makes `analyze_batch` raise
`AnalysisError` rather than succeed); a parsed empty list is a
successful zero-lead chunk. -/
theorem C9_parse_response_cases :
    (∀ s, strStrip s = "" → parse_response s = .PList [])
    ∧ (∀ s, strStrip s ≠ "" →
        jsonLoads (sliceArray (stripCodeBlock (strStrip s))).toList = none →
        parse_response s = .PList [])
    ∧ (∀ s v, strStrip s ≠ "" →
        jsonLoads (sliceArray (stripCodeBlock (strStrip s))).toList = some v →
        parse_response s = v)
    ∧ parse_response "42" = .PNum 42 0
    ∧ analyze_batch (fun _ : Nat => Except.ok ("42" : String)) [⟨0, none, "x"⟩] 3 =
        .error "Failed to analyze batch: TypeError: results object is not iterable"
    ∧ (∀ (msgs : List Item) (llm : Nat → Except String String),
        llm 0 = .ok "[]" → analyze_batch llm msgs 3 = .ok []) := by
  refine ⟨fun s hs => ?_, fun s hs hj => ?_, fun s v hs hj => ?_, rfl, rfl,
    fun msgs llm hllm => ?_⟩
  · simp [parse_response, hs]
  · simp only [strToList] at hj
    simp [parse_response, hs, hj]
  · simp only [strToList] at hj
    simp [parse_response, hs, hj]
  · exact analyze_batch_ok_empty msgs llm "[]" hllm rfl

/-- C9 witness: concrete instances of each hypothesis-bearing clause of
`C9_parse_response_cases`. -/
theorem C9_witness :
    strStrip "  " = ""
    ∧ parse_response "  " = .PList []
    ∧ strStrip "junk" ≠ ""
    ∧ jsonLoads (sliceArray (stripCodeBlock (strStrip "junk"))).toList = none
    ∧ parse_response "junk" = .PList []
    ∧ jsonLoads (sliceArray (stripCodeBlock (strStrip "42"))).toList = some (.PNum 42 0)
    ∧ parse_response "42" = .PNum 42 0 :=
  ⟨rfl, C9_parse_response_cases.1 "  " rfl, by decide, rfl,
    C9_parse_response_cases.2.1 "junk" (by decide) rfl,
    rfl, C9_parse_response_cases.2.2.1 "42" (.PNum 42 0) (by decide) rfl⟩

/-! ### C4 — one stats summary per cycle -/

/-- C4 counterexample: a cycle whose `get_folder_chats` raises is caught
by the top-level handler, which only logs — no stats summary is sent, so
"exactly one stats summary per cycle, even on unhandled errors" fails. -/
theorem C4_counterexample :
    (process_cycle envFetchFail DB.empty).stats = [] := rfl

/-- C4 amended: every cycle in which no unhandled exception escapes (in
the model: the chat-folder fetch succeeds) sends exactly one stats
summary — including the all-zero summaries of empty cycles — while a
cycle ending in an unhandled error sends none. -/
theorem C4_one_stats_without_exception (env : CycleEnv) (db : DB)
    (peers : List Chat) (h : env.folderChats = .ok peers) :
    (process_cycle env db).stats.length = 1 := by
  have hrw : process_cycle env db = process_cycle_ok env db peers := by
    simp [process_cycle, h]
  rw [hrw]
  simp only [process_cycle_ok, amb_success]
  split_ifs <;> simp

/-- C4 witness: an empty folder still produces exactly one (all-zero)
stats summary. -/
theorem C4_witness :
    (⟨.ok [], fun _ _ => .ok "", id, [], 0⟩ : CycleEnv).folderChats = .ok []
    ∧ (process_cycle ⟨.ok [], fun _ _ => .ok "", id, [], 0⟩ DB.empty).stats.length = 1 :=
  ⟨rfl, C4_one_stats_without_exception _ DB.empty [] rfl⟩

/-! ### Supporting lemmas: the commit only touches `chat_state` rows -/

theorem get_or_create_user_chatStates (db : DB) (a : Int) (u f : Option String) :
    (get_or_create_user db a u f).1.chatStates = db.chatStates := by
  unfold get_or_create_user
  split <;> rfl

theorem saveAllAux_chatStates (l : List ParsedMessage) :
    ∀ p : DB × List (ParsedMessage × Nat),
      (List.foldl (fun acc msg =>
        let d1 := (get_or_create_user acc.1 msg.user_id msg.username msg.first_name).1
        let r := save_message d1 msg.message_id msg.chat_id msg.text
        (r.1, acc.2 ++ [(msg, r.2.id)])) p l).1.chatStates = p.1.chatStates := by
  induction l with
  | nil => intro p; rfl
  | cons m rest ih =>
    intro p
    rw [List.foldl_cons, ih]
    simp [save_message, get_or_create_user_chatStates]

theorem saveAll_chatStates (db : DB) (msgs : List ParsedMessage) :
    (saveAll db msgs).1.chatStates = db.chatStates :=
  saveAllAux_chatStates msgs (db, [])

theorem saveAllAux_length (l : List ParsedMessage) :
    ∀ p : DB × List (ParsedMessage × Nat),
      (List.foldl (fun acc msg =>
        let d1 := (get_or_create_user acc.1 msg.user_id msg.username msg.first_name).1
        let r := save_message d1 msg.message_id msg.chat_id msg.text
        (r.1, acc.2 ++ [(msg, r.2.id)])) p l).2.length = p.2.length + l.length := by
  induction l with
  | nil => intro p; simp
  | cons m rest ih =>
    intro p
    rw [List.foldl_cons, ih]
    simp
    omega

theorem saveAll_length (db : DB) (msgs : List ParsedMessage) :
    (saveAll db msgs).2.length = msgs.length := by
  have := saveAllAux_length msgs (db, [])
  simpa [saveAll] using this

theorem processResultsAux_chatStates (results : List (PyVal × Verdict))
    (l : List (Nat × ParsedMessage × Nat)) :
    ∀ acc : DB × List Lead × Nat,
      (l.foldl (fun acc p =>
        match pyGet results (.PNum (Int.ofNat p.1) 0) with
        | none => acc
        | some v =>
          let db1 := update_message_lead_status acc.1 p.2.2 v.1 v.2.2.1 v.2.1
          if v.1 then (db1, acc.2.1 ++ [(p.2.1, v)], acc.2.2 + 1)
          else (db1, acc.2.1, acc.2.2)) acc).1.chatStates = acc.1.chatStates := by
  induction l with
  | nil => intro acc; rfl
  | cons q rest ih =>
    intro acc
    rw [List.foldl_cons, ih]
    cases hg : pyGet results (.PNum (Int.ofNat q.1) 0) with
    | none => rfl
    | some v =>
      by_cases hv : v.1 <;> simp [hg, hv, update_message_lead_status]

theorem processResults_chatStates (db : DB) (fms : List (ParsedMessage × Nat))
    (results : List (PyVal × Verdict)) :
    (processResults db fms results).1.chatStates = db.chatStates :=
  processResultsAux_chatStates results fms.enum (db, [], 0)

theorem commit_chatStates :
    ∀ (l : List (Int × Nat)) (d : DB),
      (l.foldl (fun d p => update_last_message_id d p.1 p.2) d).chatStates =
        l.foldl (fun s p => setAssoc s p.1 p.2) d.chatStates
  | [], _ => rfl
  | q :: rest, d => by
    rw [List.foldl_cons, List.foldl_cons, commit_chatStates rest]
    rfl

/-- On the success path (non-empty folder, messages fetched, messages
surviving the filter) the final `chat_state` table is the initial one
with every `chats_to_update` entry written, in order. -/
theorem process_cycle_ok_chatStates (env : CycleEnv) (db : DB) (peers : List Chat)
    (h1 : peers.isEmpty = false)
    (h2 : (collectMessages db env.now peers).1.isEmpty = false)
    (h3 : ((saveAll db (contentFilterStage env.excludeWords
        (collectMessages db env.now peers).1)).2).isEmpty = false) :
    (process_cycle_ok env db peers).db.chatStates =
      (collectMessages db env.now peers).2.foldl
        (fun s p => setAssoc s p.1 p.2) db.chatStates := by
  simp only [process_cycle_ok, h1, h2, h3, amb_success, Bool.false_eq_true,
    if_false, Bool.not_true]
  rw [commit_chatStates, processResults_chatStates, saveAll_chatStates]

theorem isEmpty_false_iff {α : Type} (l : List α) : l.isEmpty = false ↔ l ≠ [] := by
  cases l <;> simp

theorem contentFilterStage_nil (excl : List String) :
    contentFilterStage excl [] = [] := rfl

/-! ### C7 — bootstrap of a never-scanned source -/

/-- C7: for a source with no watermark, the cycle contributes to
analysis exactly the fetched messages dated inside the last 24 hours,
records `(chat_id, max message id over ALL fetched messages)` as the
candidate watermark, and — when messages survive filtering so the cycle
reaches its (always-successful) classification and commit — stores that
maximum as the new watermark. -/
theorem C7_new_source_watermark (env : CycleEnv) (db : DB) (c : Chat)
    (hfolder : env.folderChats = .ok [c])
    (hwm : get_last_message_id db c.chat_id = none)
    (hfetch : (get_new_messages c.history 0).isEmpty = false)
    (hsurvive : (contentFilterStage env.excludeWords
        ((get_new_messages c.history 0).filter
          (fun m => env.now - 24 * 3600 < m.date))).isEmpty = false) :
    collectMessages db env.now [c] =
      ((get_new_messages c.history 0).filter (fun m => env.now - 24 * 3600 < m.date),
        [(c.chat_id, maxMsgId (get_new_messages c.history 0))])
    ∧ get_last_message_id (process_cycle env db).db c.chat_id =
        some (maxMsgId (get_new_messages c.history 0)) := by
  have hcol : collectMessages db env.now [c] =
      ((get_new_messages c.history 0).filter (fun m => env.now - 24 * 3600 < m.date),
        [(c.chat_id, maxMsgId (get_new_messages c.history 0))]) := by
    have hne : get_new_messages c.history 0 ≠ [] := (isEmpty_false_iff _).mp hfetch
    simp [collectMessages, collectOne, hwm, hfetch, hne]
  refine ⟨hcol, ?_⟩
  have hrecne : ((get_new_messages c.history 0).filter
      (fun m => env.now - 24 * 3600 < m.date)).isEmpty = false := by
    rw [isEmpty_false_iff]
    intro hnil
    rw [hnil, contentFilterStage_nil] at hsurvive
    exact absurd hsurvive (by simp)
  have h2 : (collectMessages db env.now [c]).1.isEmpty = false := by
    rw [hcol]; exact hrecne
  have h3 : ((saveAll db (contentFilterStage env.excludeWords
      (collectMessages db env.now [c]).1)).2).isEmpty = false := by
    rw [hcol, isEmpty_false_iff]
    intro hnil
    have hlen := saveAll_length db (contentFilterStage env.excludeWords
      ((get_new_messages c.history 0).filter (fun m => env.now - 24 * 3600 < m.date)))
    rw [hnil] at hlen
    simp at hlen
    rw [isEmpty_false_iff] at hsurvive
    exact hsurvive (List.length_eq_zero.mp hlen.symm)
  have hstates := process_cycle_ok_chatStates env db [c] rfl h2 h3
  rw [hcol] at hstates
  have hpc : process_cycle env db = process_cycle_ok env db [c] := by
    simp [process_cycle, hfolder]
  rw [hpc]
  unfold get_last_message_id
  rw [hstates]
  simp [setAssoc_find_self]

/-- C7 witness: a fresh chat whose history holds a recent message (id 2)
and an out-of-window message with a larger ordinal (id 5); the cycle
analyzes only the recent one but commits watermark 5. -/
theorem C7_witness :
    get_last_message_id DB.empty chatNew.chat_id = none
    ∧ (get_new_messages chatNew.history 0).isEmpty = false
    ∧ (contentFilterStage envNewChat.excludeWords
        ((get_new_messages chatNew.history 0).filter
          (fun m => envNewChat.now - 24 * 3600 < m.date))).isEmpty = false
    ∧ maxMsgId (get_new_messages chatNew.history 0) = 5
    ∧ get_last_message_id (process_cycle envNewChat DB.empty).db chatNew.chat_id =
        some (maxMsgId (get_new_messages chatNew.history 0)) :=
  ⟨rfl, rfl, rfl, rfl,
    (C7_new_source_watermark envNewChat DB.empty chatNew rfl rfl rfl rfl).2⟩

/-! ### Supporting lemmas: the per-cycle text de-duplication -/

theorem dedupGo_sublist : ∀ (l : List ParsedMessage) (seen : List String),
    List.Sublist (dedupGo seen l) l
  | [], _ => List.Sublist.refl []
  | m :: rest, seen => by
    unfold dedupGo
    by_cases h : m.text ∈ seen
    · rw [if_pos h]
      exact (dedupGo_sublist rest seen).cons m
    · rw [if_neg h]
      exact (dedupGo_sublist rest (m.text :: seen)).cons₂ m

theorem dedupGo_first_occ : ∀ (l : List ParsedMessage) (seen : List String),
    ∀ m ∈ dedupGo seen l,
      m.text ∉ seen ∧ l.find? (fun x => x.text == m.text) = some m
  | [], _, m, hm => absurd hm (by simp [dedupGo])
  | m0 :: rest, seen, m, hm => by
    unfold dedupGo at hm
    by_cases h : m0.text ∈ seen
    · rw [if_pos h] at hm
      obtain ⟨hseen, hfind⟩ := dedupGo_first_occ rest seen m hm
      have hne : m0.text ≠ m.text := fun he => hseen (he ▸ h)
      exact ⟨hseen, by rw [List.find?_cons_of_neg _ (by simpa using hne), hfind]⟩
    · rw [if_neg h] at hm
      rcases List.mem_cons.mp hm with rfl | hm
      · exact ⟨h, by rw [List.find?_cons_of_pos _ (by simp)]⟩
      · obtain ⟨hseen, hfind⟩ := dedupGo_first_occ rest (m0.text :: seen) m hm
        have h1 : m.text ≠ m0.text := fun he => hseen (by simp [he])
        have h2 : m.text ∉ seen := fun he => hseen (by simp [he])
        exact ⟨h2,
          by rw [List.find?_cons_of_neg _ (by simpa using fun he => h1 he.symm), hfind]⟩

theorem dedupGo_texts_nodup : ∀ (l : List ParsedMessage) (seen : List String),
    ((dedupGo seen l).map (fun m => m.text)).Nodup
  | [], _ => by simp [dedupGo]
  | m0 :: rest, seen => by
    unfold dedupGo
    by_cases h : m0.text ∈ seen
    · rw [if_pos h]
      exact dedupGo_texts_nodup rest seen
    · rw [if_neg h, List.map_cons, List.nodup_cons]
      refine ⟨fun hmem => ?_, dedupGo_texts_nodup rest (m0.text :: seen)⟩
      obtain ⟨m, hm, he⟩ := List.mem_map.mp hmem
      exact (dedupGo_first_occ rest (m0.text :: seen) m hm).1 (by simp [he])

theorem dedupGo_covers : ∀ (l : List ParsedMessage) (seen : List String),
    ∀ m ∈ l, m.text ∈ seen ∨ ∃ m' ∈ dedupGo seen l, m'.text = m.text
  | [], _, m, hm => absurd hm (List.not_mem_nil m)
  | m0 :: rest, seen, m, hm => by
    rcases List.mem_cons.mp hm with rfl | hmr
    · by_cases h : m.text ∈ seen
      · exact .inl h
      · refine .inr ⟨m, ?_, rfl⟩
        unfold dedupGo
        rw [if_neg h]
        exact List.mem_cons_self m _
    · by_cases h : m0.text ∈ seen
      · have hrec := dedupGo_covers rest seen m hmr
        unfold dedupGo
        rw [if_pos h]
        exact hrec
      · rcases dedupGo_covers rest (m0.text :: seen) m hmr with hc | ⟨m', hm', he⟩
        · rcases List.mem_cons.mp hc with he0 | hseen
          · refine .inr ⟨m0, ?_, he0.symm⟩
            unfold dedupGo
            rw [if_neg h]
            exact List.mem_cons_self m0 _
          · exact .inl hseen
        · refine .inr ⟨m', ?_, he⟩
          unfold dedupGo
          rw [if_neg h]
          exact List.mem_cons_of_mem m0 hm'

/-! ### C5 amended — de-duplication is by exact byte-identical text -/

/-- C5 amended: on the spec's four-item example the Content Filter stage
keeps all four items in order, because de-duplication compares exact
(byte-identical, untrimmed, case-sensitive) text; in general the stage
returns a subsequence of the exclusion-filtered input whose texts are
pairwise distinct, each survivor is the first occurrence of its text,
and every filtered-in text is represented. -/
theorem C5_dedup_exact_text :
    (contentFilterStage [] msgs4).map (fun m => m.text) =
      ["Selling car", "selling car", "Selling CAR", "House for rent"]
    ∧ (∀ (excl : List String) (msgs : List ParsedMessage),
        List.Sublist (contentFilterStage excl msgs) (filter_messages excl msgs)
        ∧ ((contentFilterStage excl msgs).map (fun m => m.text)).Nodup
        ∧ (∀ m ∈ contentFilterStage excl msgs,
            (filter_messages excl msgs).find? (fun x => x.text == m.text) = some m)
        ∧ ∀ m ∈ filter_messages excl msgs,
            ∃ m' ∈ contentFilterStage excl msgs, m'.text = m.text) := by
  refine ⟨rfl, fun excl msgs => ⟨dedupGo_sublist _ [],
    dedupGo_texts_nodup _ [], fun m hm => (dedupGo_first_occ _ [] m hm).2,
    fun m hm => ?_⟩⟩
  rcases dedupGo_covers (filter_messages excl msgs) [] m hm with hc | hex
  · simp at hc
  · exact hex

/-- C5 witness: the first casing of "Selling car" survives and is the
first occurrence of its text in the example input. -/
theorem C5_witness :
    mkPM 1 "Selling car" 0 ∈ contentFilterStage [] msgs4
    ∧ (filter_messages [] msgs4).find?
        (fun x => x.text == (mkPM 1 "Selling car" 0).text) =
      some (mkPM 1 "Selling car" 0) :=
  ⟨by decide,
    (C5_dedup_exact_text.2 [] msgs4).2.2.1 (mkPM 1 "Selling car" 0) (by decide)⟩

/-! ### Supporting lemmas: the 100-message fetch window -/

theorem foldl_max_init : ∀ (l : List ParsedMessage) (a : Nat),
    a ≤ l.foldl (fun acc m => Nat.max acc m.message_id) a
  | [], a => le_refl a
  | m :: rest, a =>
    le_trans (Nat.le_max_left a m.message_id) (foldl_max_init rest _)

theorem le_maxMsgId_aux : ∀ (l : List ParsedMessage) (a : Nat) (m : ParsedMessage),
    m ∈ l → m.message_id ≤ l.foldl (fun acc x => Nat.max acc x.message_id) a
  | m0 :: rest, a, m, hm => by
    rcases List.mem_cons.mp hm with rfl | hmr
    · exact le_trans (Nat.le_max_right a m.message_id) (foldl_max_init rest _)
    · exact le_maxMsgId_aux rest _ m hmr

theorem le_maxMsgId (l : List ParsedMessage) (m : ParsedMessage) (hm : m ∈ l) :
    m.message_id ≤ maxMsgId l :=
  le_maxMsgId_aux l 0 m hm

theorem sorted_take_drop {l : List ParsedMessage} (hs : List.Sorted idGe l)
    (n : Nat) {x y : ParsedMessage} (hx : x ∈ l.take n) (hy : y ∈ l.drop n) :
    y.message_id ≤ x.message_id := by
  have hp : List.Pairwise idGe (l.take n ++ l.drop n) := by
    rw [List.take_append_drop]
    exact hs
  exact (List.pairwise_append.mp hp).2.2 x hx y hy

theorem mem_get_new_messages_gt (h : List ParsedMessage) (mi : Nat)
    {x : ParsedMessage} (hx : x ∈ get_new_messages h mi) : mi < x.message_id := by
  unfold get_new_messages at hx
  have hx1 := List.mem_of_mem_filter hx
  have hx2 := List.take_subset _ _ hx1
  have hx3 := (List.perm_insertionSort idGe _).mem_iff.mp hx2
  have := List.of_mem_filter hx3
  simpa using this

theorem mem_get_new_messages_mem (h : List ParsedMessage) (mi : Nat)
    {x : ParsedMessage} (hx : x ∈ get_new_messages h mi) : x ∈ h := by
  unfold get_new_messages at hx
  have hx1 := List.mem_of_mem_filter hx
  have hx2 := List.take_subset _ _ hx1
  have hx3 := (List.perm_insertionSort idGe _).mem_iff.mp hx2
  exact List.mem_of_mem_filter hx3

/-! ### C10 — the 100-message cap silently skips older backlog -/

/-- C10: one fetch returns at most 100 messages; when more than 100
messages are newer than the watermark (and none is skipped for missing
text or sender), exactly the 100 newest are returned — every returned
message id dominates every left-behind one, the left-behind ids are at
most the maximum fetched id, and after the cycle advances the watermark
to that maximum a later fetch can never return them; the candidate
watermark recorded for the chat is exactly that maximum. -/
theorem C10_fetch_cap_and_skip (h : List ParsedMessage) (min_id : Nat)
    (hvalid : ∀ m ∈ h, validMsg m = true)
    (hmany : 100 < (h.filter (fun m => min_id < m.message_id)).length) :
    (∀ (h2 : List ParsedMessage) (mi : Nat), (get_new_messages h2 mi).length ≤ 100)
    ∧ (get_new_messages h min_id).length = 100
    ∧ (∀ y ∈ h, min_id < y.message_id → y ∉ get_new_messages h min_id →
        (∀ x ∈ get_new_messages h min_id, y.message_id ≤ x.message_id)
        ∧ y.message_id ≤ maxMsgId (get_new_messages h min_id)
        ∧ y ∉ get_new_messages h (maxMsgId (get_new_messages h min_id)))
    ∧ (∀ (db : DB) (now : Int) (c : Chat), c.history = h →
        get_last_message_id db c.chat_id = some min_id →
        (collectOne db now c).2 =
          some (c.chat_id, maxMsgId (get_new_messages h min_id))) := by
  have hsorted : List.Sorted idGe
      ((h.filter (fun m => min_id < m.message_id)).insertionSort idGe) :=
    List.sorted_insertionSort idGe _
  have hperm := List.perm_insertionSort idGe (h.filter (fun m => min_id < m.message_id))
  have hslen : ((h.filter (fun m => min_id < m.message_id)).insertionSort idGe).length =
      (h.filter (fun m => min_id < m.message_id)).length := hperm.length_eq
  -- all members of the take-100 window are valid, so the validity filter is a no-op
  have htakeval : ∀ x ∈ (((h.filter (fun m => min_id < m.message_id)).insertionSort
      idGe).take 100), validMsg x = true := by
    intro x hx
    have hx2 := List.take_subset _ _ hx
    have hx3 := hperm.mem_iff.mp hx2
    exact hvalid x (List.mem_of_mem_filter hx3)
  have hres : get_new_messages h min_id =
      ((h.filter (fun m => min_id < m.message_id)).insertionSort idGe).take 100 := by
    unfold get_new_messages
    exact List.filter_eq_self.mpr htakeval
  have hlen : (get_new_messages h min_id).length = 100 := by
    rw [hres, List.length_take, hslen]
    exact Nat.min_eq_left (le_of_lt hmany)
  refine ⟨?_, hlen, fun y hy hynew hynot => ?_, fun db now c hc hwm => ?_⟩
  · intro h2 mi
    unfold get_new_messages
    exact le_trans (List.length_filter_le _ _)
      (le_trans (Nat.le_refl _) (List.length_take_le _ _))
  · -- y was newer than the watermark but dropped by the cap
    have hys : y ∈ (h.filter (fun m => min_id < m.message_id)).insertionSort idGe :=
      hperm.mem_iff.mpr (List.mem_filter.mpr ⟨hy, by simpa using hynew⟩)
    have hsplit : y ∈ ((h.filter (fun m => min_id < m.message_id)).insertionSort
          idGe).take 100 ++
        ((h.filter (fun m => min_id < m.message_id)).insertionSort idGe).drop 100 := by
      rw [List.take_append_drop]
      exact hys
    have hydrop : y ∈ ((h.filter (fun m => min_id < m.message_id)).insertionSort
        idGe).drop 100 := by
      rcases List.mem_append.mp hsplit with hyt | hyd
      · exact absurd (hres ▸ hyt) hynot
      · exact hyd
    have hx_ge : ∀ x ∈ get_new_messages h min_id, y.message_id ≤ x.message_id := by
      intro x hx
      exact sorted_take_drop hsorted 100 (hres ▸ hx) hydrop
    have hne : get_new_messages h min_id ≠ [] := by
      intro hnil
      rw [hnil] at hlen
      simp at hlen
    obtain ⟨x0, hx0⟩ := List.exists_mem_of_ne_nil _ hne
    have hymax : y.message_id ≤ maxMsgId (get_new_messages h min_id) :=
      le_trans (hx_ge x0 hx0) (le_maxMsgId _ x0 hx0)
    refine ⟨hx_ge, hymax, fun hyagain => ?_⟩
    exact absurd (mem_get_new_messages_gt h _ hyagain) (Nat.not_lt.mpr hymax)
  · -- the candidate watermark for a watermarked chat is the max fetched id
    have hne : get_new_messages h min_id ≠ [] := by
      intro hnil
      rw [hnil] at hlen
      simp at hlen
    rw [collectOne, hc, hwm]
    simp [hne]

/-- C10 witness: a chat history of 101 valid messages with ids 1..101;
one fetch from watermark 0 returns exactly 100 of them. -/
theorem C10_witness :
    (∀ m ∈ hist101, validMsg m = true)
    ∧ 100 < (hist101.filter (fun m => 0 < m.message_id)).length
    ∧ (get_new_messages hist101 0).length = 100 :=
  ⟨by decide, by decide,
    (C10_fetch_cap_and_skip hist101 0 (by decide) (by decide)).2.1⟩

end LeadsTgFb
